import Mathlib

/-!
Verification of the lease-acquisition and reconciliation protocol of the
`react-single-tab` library (`src/useSingleTabEnforcer.ts`, with the two
simplified hook variants and the shared `utils.ts`).

The hook's mutable world is embedded explicitly:

* the single `localStorage` cell under the namespace key is a `Cell`;
* the JavaScript value obtained by `JSON.parse` of the stored string is a
  `JSVal`, with just enough of JavaScript's dynamic semantics (truthiness,
  `ToNumber` coercion of a property used in subtraction so that a missing or
  non-numeric `timestamp` behaves like `NaN`, and strict `===` comparison of
  the `id` property against a string) to trace every branch of the source;
* the React state touched by the hook (`isLeader`, `tabCount`, `isChecking`)
  is a `TabState`, and each handler is a pure function from its inputs to the
  new state and cell.  `localStorage` failures, which the source catches
  inside `getCurrentRecord` / `setTabRecord` / `removeTabRecord`, are injected
  through explicit `readFails` / `writeFails` / `deleteFails` flags.

Composite values nested inside a record's own properties are collapsed to the
single constructor `FieldVal.fobj`, since the source only observes a property
through `ToNumber` (an object coerces to `NaN`) and `===` against a string (an
object is never equal), so every object property value is observationally
identical.
-/

namespace SingleTab

/-- A JavaScript value sitting in a property of a parsed record.
`missing` is the absent property (reads as `undefined`). -/
inductive FieldVal where
  | missing
  | fnull
  | fbool (b : Bool)
  | fnum (n : Int)
  | fstr (s : String)
  | fobj
deriving DecidableEq, Repr

/-- A JavaScript value produced by `JSON.parse` of the stored string.
`jobj` carries the two properties the source ever reads: `id` and
`timestamp`. -/
inductive JSVal where
  | jnull
  | jbool (b : Bool)
  | jnum (n : Int)
  | jstr (s : String)
  | jobj (idProp : FieldVal) (timestampProp : FieldVal)
deriving DecidableEq, Repr

/-- JavaScript truthiness of a parsed value (`!record` negates this). -/
def JSVal.truthy : JSVal → Bool
  | .jnull => false
  | .jbool b => b
  | .jnum n => n != 0
  | .jstr s => s != ""
  | .jobj _ _ => true

/-- Property access `record.timestamp`: `undefined` on non-objects. -/
def JSVal.timestampProp : JSVal → FieldVal
  | .jobj _ t => t
  | _ => .missing

/-- Property access `record.id`: `undefined` on non-objects. -/
def JSVal.idProp : JSVal → FieldVal
  | .jobj i _ => i
  | _ => .missing

/-- JavaScript `ToNumber` of a property value, as used by the subtraction
`now - record.timestamp`.  `none` stands for `NaN`.  String coercion is
modelled for decimal-integer strings (the only inhabitants the theorems
evaluate it at); other strings coerce to `NaN`. -/
def toNumber : FieldVal → Option Int
  | .missing => none
  | .fnull => some 0
  | .fbool b => some (if b then 1 else 0)
  | .fnum n => some n
  | .fstr s => if s = "" then some 0 else s.toInt?
  | .fobj => none

/-- The test `now - record.timestamp > timeout` of `checkLeadership`.
A `NaN` difference compares `false`, exactly as in JavaScript. -/
def expiredCheck (v : JSVal) (now timeout : Int) : Bool :=
  match toNumber v.timestampProp with
  | some t => now - t > timeout
  | none => false

/-- The test `record.id === currentTabId`: strict equality against a string
is true only for an equal string. -/
def idStrictEq (v : JSVal) (tabId : String) : Bool :=
  match v.idProp with
  | .fstr s => s = tabId
  | _ => false

/-- The well-formed record the hook itself writes
(`{ id: currentTabId, timestamp: now }`, `src/types.ts` shape). -/
structure TabRecord where
  id : String
  timestamp : Int
deriving DecidableEq, Repr

/-- `JSON.stringify` of a `TabRecord` parses back to this value. -/
def TabRecord.toJS (r : TabRecord) : JSVal :=
  .jobj (.fstr r.id) (.fnum r.timestamp)

/-- The contents of the `localStorage` cell under the namespace key. -/
inductive Cell where
  /-- no item: `getItem` returns `null`. -/
  | empty
  /-- the stored string is `""`: falsy, so the ternary in `getCurrentRecord`
  yields `null` without parsing. -/
  | emptyStr
  /-- the stored string is not valid JSON: `JSON.parse` throws. -/
  | badJson
  /-- the stored string parses to the value `v`. -/
  | val (v : JSVal)
deriving DecidableEq, Repr

/-- React state of the hook that the reconciliation path touches.
`isChecking` is recorded as its value after the handler returns
(`checkLeadership` sets it `true` on entry and `false` on exit). -/
structure TabState where
  isLeader : Bool
  tabCount : Nat
  isChecking : Bool
deriving DecidableEq, Repr

/-- `getCurrentRecord` (`useSingleTabEnforcer.ts` lines 106-114): read the
item, parse it if truthy; any thrown error (read failure or parse failure) is
caught and turned into `null`. -/
def getCurrentRecord (cell : Cell) (readFails : Bool) : Option JSVal :=
  if readFails then none
  else
    match cell with
    | .empty => none
    | .emptyStr => none
    | .badJson => none
    | .val v => some v

/-- `setTabRecord` (lines 116-122): write the serialized record; a thrown
error is caught and the cell is left as it was. -/
def setTabRecord (cell : Cell) (r : TabRecord) (writeFails : Bool) : Cell :=
  if writeFails then cell else .val r.toJS

/-- `removeTabRecord` (lines 124-130): delete the item; a thrown error is
caught and the cell is left as it was. -/
def removeTabRecord (cell : Cell) (deleteFails : Bool) : Cell :=
  if deleteFails then cell else .empty

/-- Which arm of the three-way `if` chain of `checkLeadership` runs for a
given read result.  `claim` is the first arm
(`!record || now - record.timestamp > timeout`), `renew` the second
(`record.id === currentTabId`), `follower` the `else`. -/
inductive Branch where
  | claim
  | renew
  | follower
deriving DecidableEq, Repr

/-- The branch selection of `checkLeadership` (lines 142-161). -/
def decideBranch (record : Option JSVal) (now : Int) (tabId : String)
    (timeout : Int) : Branch :=
  match record with
  | none => .claim
  | some v =>
    if !v.truthy || expiredCheck v now timeout then .claim
    else if idStrictEq v tabId then .renew
    else .follower

/-- `checkLeadership` (lines 132-164): read the record, then claim, renew or
fall back to follower.  Claim and renew perform the same write
`{ id: currentTabId, timestamp: now }` and set `isLeader := true`,
`tabCount := 1`; the follower arm writes nothing, sets `isLeader := false`,
`tabCount := 2` (and fires `onTabDetected`, not modelled).  `isChecking` ends
`false` in every arm. -/
def checkLeadership (cell : Cell) (readFails writeFails : Bool) (now : Int)
    (tabId : String) (timeout : Int) (st : TabState) : TabState × Cell :=
  let record := getCurrentRecord cell readFails
  match decideBranch record now tabId timeout with
  | .claim => (⟨true, 1, false⟩, setTabRecord cell ⟨tabId, now⟩ writeFails)
  | .renew => (⟨true, 1, false⟩, setTabRecord cell ⟨tabId, now⟩ writeFails)
  | .follower => (⟨false, 2, false⟩, cell)

/-- `true` exactly when `checkLeadership` reaches a `setTabRecord` call (the
claim and renew arms). -/
def attemptsWrite (cell : Cell) (readFails : Bool) (now : Int)
    (tabId : String) (timeout : Int) : Bool :=
  match decideBranch (getCurrentRecord cell readFails) now tabId timeout with
  | .follower => false
  | _ => true

/-- `forceLeadership` (lines 166-172): unconditionally write the caller's
record and set `isLeader := true`, `tabCount := 1`.  `isChecking` is not
touched. -/
def forceLeadership (cell : Cell) (writeFails : Bool) (now : Int)
    (tabId : String) (st : TabState) : TabState × Cell :=
  (⟨true, 1, st.isChecking⟩, setTabRecord cell ⟨tabId, now⟩ writeFails)

/-- `cleanup` (lines 248-262), run on unmount and on `beforeunload`: re-read
the record and delete it only when `record && record.id === currentTabId`.
The best-effort `tab-closing` broadcast does not touch the store and is not
modelled. -/
def cleanup (cell : Cell) (readFails deleteFails : Bool)
    (tabId : String) : Cell :=
  match getCurrentRecord cell readFails with
  | none => cell
  | some v =>
    if v.truthy && idStrictEq v tabId then removeTabRecord cell deleteFails
    else cell

/-- The unmount cleanup of the second simplified hook variant (the effect
return value, `if (isLeader) localStorage.removeItem(storageKey)`): it
deletes based on the local `isLeader` flag captured by the effect, without
re-reading the record, and has no try/catch. -/
def cleanupSimple (cell : Cell) (isLeader : Bool) : Cell :=
  if isLeader then Cell.empty else cell

/-- `document.visibilityState` as observed by `handleVisibilityChange`. -/
inductive Visibility where
  | visible
  | hidden
deriving DecidableEq, Repr

/-- `handleVisibilityChange` (lines 269-278): when the document becomes
hidden and this tab is leader, rewrite the record with a fresh timestamp; it
performs no state updates, so the returned state is the input state. -/
def handleVisibilityChange (vis : Visibility) (st : TabState) (cell : Cell)
    (tabId : String) (now : Int) (writeFails : Bool) : TabState × Cell :=
  match vis with
  | .hidden =>
    if st.isLeader then (st, setTabRecord cell ⟨tabId, now⟩ writeFails)
    else (st, cell)
  | .visible => (st, cell)

/-- What a trigger handler does with the shared reconciliation routine. -/
inductive TriggerAction where
  /-- call `checkLeadership()` synchronously. -/
  | reconcileNow
  /-- `setTimeout(checkLeadership, delayMs)`. -/
  | schedule (delayMs : Nat)
  /-- do nothing. -/
  | ignore
deriving DecidableEq, Repr

/-- `handleStorageChange` (lines 214-227) of the main hook: on a `storage`
event for the namespace key, call `checkLeadership()` immediately. -/
def handleStorageChange (eventKey storageKey : String) : TriggerAction :=
  if eventKey = storageKey then .reconcileNow else .ignore

/-- `handleMessage` (lines 197-203): on a BroadcastChannel
`leadership-change` message, `setTimeout(checkLeadership, 100)`. -/
def handleMessage (msgType : String) : TriggerAction :=
  if msgType = "leadership-change" then .schedule 100 else .ignore

/-- `handleStorage` of the simplified hook variants (both simplified
`useSingleTabEnforcer` files, lines 53-57 and 61-65): on a `storage` event
for the namespace key, `setTimeout(checkLeadership, 100)`. -/
def handleStorage (eventKey storageKey : String) : TriggerAction :=
  if eventKey = storageKey then .schedule 100 else .ignore

/-- One run of the leadership-transition effect (lines 175-186): compare the
`previousLeaderState` ref with `isLeader`; on a difference fire exactly one
callback and update the ref.  Returns
(`onBecomeLeader` fired, `onLoseLeadership` fired, new ref value). -/
def leadershipEffect (prev cur : Bool) : Bool × Bool × Bool :=
  if prev = cur then (false, false, prev) else (cur, !cur, cur)

/-- Total callbacks fired by running the transition effect over a sequence of
observed `isLeader` values, starting from ref value `prev`:
(`onBecomeLeader` count, `onLoseLeadership` count). -/
def runEffects : Bool → List Bool → Nat × Nat
  | _, [] => (0, 0)
  | prev, cur :: rest =>
    let e := leadershipEffect prev cur
    let r := runEffects e.2.2 rest
    ((if e.1 then 1 else 0) + r.1, (if e.2.1 then 1 else 0) + r.2)

/-- Number of `false → true` transitions in `prev :: seq`. -/
def countRises : Bool → List Bool → Nat
  | _, [] => 0
  | prev, cur :: rest => (if !prev && cur then 1 else 0) + countRises cur rest

/-- Number of `true → false` transitions in `prev :: seq`. -/
def countFalls : Bool → List Bool → Nat
  | _, [] => 0
  | prev, cur :: rest => (if prev && !cur then 1 else 0) + countFalls cur rest

/-- Iterated reconciliation: run `checkLeadership` (failure-free) once per
entry of `nows`, threading state and cell. -/
def checkN (tabId : String) (timeout : Int) :
    List Int → TabState × Cell → TabState × Cell
  | [], sc => sc
  | now :: rest, (st, cell) =>
    checkN tabId timeout rest (checkLeadership cell false false now tabId timeout st)

/-- The state-and-cell result of a successful claim or renew at time `now`. -/
def claimResult (tabId : String) (now : Int) : TabState × Cell :=
  (⟨true, 1, false⟩, .val (TabRecord.toJS ⟨tabId, now⟩))

/-! ## Helper lemmas -/

/-- A `setTabRecord` call either leaves the cell alone (caught write error)
or stores exactly the serialized record. -/
theorem setTabRecord_cases (cell : Cell) (r : TabRecord) (wf : Bool) :
    setTabRecord cell r wf = cell ∨ setTabRecord cell r wf = .val r.toJS := by
  cases wf <;> simp [setTabRecord]

/-- Characterization of one failure-free reconciliation against a well-formed
stored record: expired or self-owned yields the claim/renew write, a live
foreign record yields the untouched follower result. -/
theorem checkLeadership_record (owner tabId : String) (ts now timeout : Int)
    (st : TabState) :
    checkLeadership (Cell.val (TabRecord.toJS ⟨owner, ts⟩)) false false now tabId timeout st
      = if now - ts > timeout ∨ owner = tabId then claimResult tabId now
        else (⟨false, 2, false⟩, Cell.val (TabRecord.toJS ⟨owner, ts⟩)) := by
  unfold checkLeadership decideBranch getCurrentRecord setTabRecord expiredCheck
    idStrictEq claimResult TabRecord.toJS
  simp only [JSVal.truthy, JSVal.timestampProp, JSVal.idProp, toNumber]
  by_cases h1 : now - ts > timeout
  · simp [h1]
  · by_cases h2 : owner = tabId <;> simp [h1, h2]

/-- A leader reconciling against its own record always ends in the claim or
renew arm and rewrites its record with the current time. -/
theorem checkLeadership_self (tabId : String) (ts now timeout : Int) (st : TabState) :
    checkLeadership (Cell.val (TabRecord.toJS ⟨tabId, ts⟩)) false false now tabId timeout st
      = claimResult tabId now := by
  simp [checkLeadership_record]

/-- One reconciliation of a settled follower against a live foreign record
changes nothing. -/
theorem checkLeadership_foreign (tabId other : String) (ts now timeout : Int)
    (st : TabState) (hid : other ≠ tabId) (hlive : now - ts ≤ timeout) :
    checkLeadership (Cell.val (TabRecord.toJS ⟨other, ts⟩)) false false now tabId timeout st
      = (⟨false, 2, false⟩, Cell.val (TabRecord.toJS ⟨other, ts⟩)) := by
  rw [checkLeadership_record]
  simp [hid, not_lt.mpr hlive]

/-- Iterating reconciliation from a leader state rewrites the own record once
per call; the final timestamp is the last reconciliation time. -/
theorem checkN_leader (tabId : String) (timeout : Int) (nows : List Int) :
    ∀ ts0 : Int,
      checkN tabId timeout nows (⟨true, 1, false⟩, Cell.val (TabRecord.toJS ⟨tabId, ts0⟩))
        = (⟨true, 1, false⟩, Cell.val (TabRecord.toJS ⟨tabId, nows.getLastD ts0⟩)) := by
  induction nows with
  | nil => intro ts0; rfl
  | cons now rest ih =>
    intro ts0
    have h1 : checkN tabId timeout (now :: rest)
        (⟨true, 1, false⟩, Cell.val (TabRecord.toJS ⟨tabId, ts0⟩))
        = checkN tabId timeout rest
            (checkLeadership (Cell.val (TabRecord.toJS ⟨tabId, ts0⟩)) false false now
              tabId timeout ⟨true, 1, false⟩) := rfl
    rw [h1, checkLeadership_self, List.getLastD_cons]
    exact ih now

/-- Iterating reconciliation from a settled-follower state over times at
which the foreign record stays live changes nothing. -/
theorem checkN_follower (tabId other : String) (timeout ts : Int) (nows : List Int)
    (hid : other ≠ tabId) (hlive : ∀ x ∈ nows, x - ts ≤ timeout) :
    checkN tabId timeout nows (⟨false, 2, false⟩, Cell.val (TabRecord.toJS ⟨other, ts⟩))
      = (⟨false, 2, false⟩, Cell.val (TabRecord.toJS ⟨other, ts⟩)) := by
  induction nows with
  | nil => rfl
  | cons now rest ih =>
    rw [checkN, checkLeadership_foreign tabId other ts now timeout _ hid
      (hlive now (by simp))]
    exact ih (fun x hx => hlive x (by simp [hx]))

/-- Along a `≤`-chain, the last element of each prefix is monotone in the
prefix length. -/
theorem chain_take_getLastD (l : List Int) :
    ∀ a : Int, List.Chain (· ≤ ·) a l →
      ∀ n, (l.take n).getLastD a ≤ (l.take (n + 1)).getLastD a := by
  induction l with
  | nil => intro a _ n; simp
  | cons b rest ih =>
    intro a hc n
    rcases List.chain_cons.mp hc with ⟨hab, hrest⟩
    cases n with
    | zero => simpa using hab
    | succ m =>
      rw [List.take_succ_cons, List.take_succ_cons, List.getLastD_cons,
        List.getLastD_cons]
      exact ih b hrest m

/-- The transition effect fires exactly the edge counts of the observed
`isLeader` sequence. -/
theorem runEffects_eq_counts (seq : List Bool) (prev : Bool) :
    runEffects prev seq = (countRises prev seq, countFalls prev seq) := by
  induction seq generalizing prev with
  | nil => rfl
  | cons cur rest ih =>
    cases prev <;> cases cur <;>
      simp [runEffects, countRises, countFalls, leadershipEffect, ih]

/-! ## Claim theorems -/

/-- Claim C1, counterexample: the claim says a malformed stored value takes
the claim branch, writing a fresh record and setting `isLeader = true`.  A
stored `"42"` parses to the truthy number `42`; its `timestamp` property is
`undefined`, so the age test compares against `NaN` and fails, its `id`
property is not the caller's id, and reconciliation lands in the follower
branch: `isLeader` becomes `false` and nothing is written. -/
theorem checkLeadership_malformed_number_follower :
    (checkLeadership (Cell.val (JSVal.jnum 42)) false false 100 "me" 50
        ⟨true, 1, false⟩).1.isLeader = false
    ∧ (checkLeadership (Cell.val (JSVal.jnum 42)) false false 100 "me" 50
        ⟨true, 1, false⟩).2 = Cell.val (JSVal.jnum 42) := by decide

/-- Claim C1 (amended): the reconciliation decision rule, in order.  A record
that is absent, unparsable, or parses to a falsy value is treated as absent
and claimed; a well-formed record that is expired is claimed; a well-formed
self-owned record is renewed (the identical write with refreshed timestamp);
a live well-formed foreign record leaves the participant a follower with the
store untouched.  Amendment forced by the counterexample: a stored value that
parses to a truthy value without a numeric `timestamp` and without the
caller's id as its `id` string is not treated as absent — it takes the
follower branch. -/
theorem checkLeadership_decision_rule (now timeout ts : Int) (tabId other : String)
    (st : TabState) (v : JSVal) :
    (checkLeadership Cell.empty false false now tabId timeout st = claimResult tabId now)
    ∧ (checkLeadership Cell.badJson false false now tabId timeout st = claimResult tabId now)
    ∧ (v.truthy = false →
        checkLeadership (Cell.val v) false false now tabId timeout st = claimResult tabId now)
    ∧ (now - ts > timeout →
        checkLeadership (Cell.val (TabRecord.toJS ⟨other, ts⟩)) false false now tabId timeout st
          = claimResult tabId now)
    ∧ (checkLeadership (Cell.val (TabRecord.toJS ⟨tabId, ts⟩)) false false now tabId timeout st
          = claimResult tabId now)
    ∧ (now - ts ≤ timeout → other ≠ tabId →
        checkLeadership (Cell.val (TabRecord.toJS ⟨other, ts⟩)) false false now tabId timeout st
          = (⟨false, 2, false⟩, Cell.val (TabRecord.toJS ⟨other, ts⟩)))
    ∧ (v.truthy = true → toNumber v.timestampProp = none → v.idProp ≠ FieldVal.fstr tabId →
        checkLeadership (Cell.val v) false false now tabId timeout st
          = (⟨false, 2, false⟩, Cell.val v)) := by
  refine ⟨rfl, rfl, ?_, ?_, checkLeadership_self tabId ts now timeout st, ?_, ?_⟩
  · intro hf
    cases v <;>
      simp_all [checkLeadership, decideBranch, getCurrentRecord, setTabRecord,
        JSVal.truthy, claimResult, TabRecord.toJS]
  · intro hexp
    rw [checkLeadership_record]
    simp [hexp]
  · intro hlive hid
    exact checkLeadership_foreign tabId other ts now timeout st hid hlive
  · intro ht hts hid
    cases v with
    | jobj i t =>
      have hie : idStrictEq (JSVal.jobj i t) tabId = false := by
        cases i <;> simp_all [idStrictEq, JSVal.idProp]
      simp_all [checkLeadership, decideBranch, getCurrentRecord,
        JSVal.truthy, expiredCheck, JSVal.timestampProp]
    | _ =>
      simp_all [checkLeadership, decideBranch, getCurrentRecord, JSVal.truthy,
        expiredCheck, JSVal.timestampProp, idStrictEq, JSVal.idProp, toNumber]

/-- Claim C1, witness: the amended decision rule evaluated at concrete
inputs — an expired foreign record is claimed, a live foreign record leaves a
follower, a truthy malformed value leaves a follower, and a falsy parsed
value is claimed. -/
theorem checkLeadership_decision_rule_witness :
    checkLeadership (Cell.val (TabRecord.toJS ⟨"b", 0⟩)) false false 100 "a" 10
        ⟨false, 2, false⟩ = claimResult "a" 100
    ∧ checkLeadership (Cell.val (TabRecord.toJS ⟨"b", 95⟩)) false false 100 "a" 10
        ⟨false, 2, false⟩ = (⟨false, 2, false⟩, Cell.val (TabRecord.toJS ⟨"b", 95⟩))
    ∧ checkLeadership (Cell.val (JSVal.jnum 7)) false false 100 "a" 10
        ⟨false, 2, false⟩ = (⟨false, 2, false⟩, Cell.val (JSVal.jnum 7))
    ∧ checkLeadership (Cell.val (JSVal.jbool false)) false false 100 "a" 10
        ⟨false, 2, false⟩ = claimResult "a" 100 := by
  have h1 := checkLeadership_decision_rule 100 10 0 "a" "b" ⟨false, 2, false⟩
    (JSVal.jbool false)
  have h2 := checkLeadership_decision_rule 100 10 95 "a" "b" ⟨false, 2, false⟩
    (JSVal.jnum 7)
  exact ⟨h1.2.2.2.1 (by decide), h2.2.2.2.2.2.1 (by decide) (by decide),
    h2.2.2.2.2.2.2 (by decide) (by decide) (by decide), h1.2.2.1 (by decide)⟩

/-- Claim C2, counterexample: the claim says every stored value that is not a
well-formed record is treated identically to an absent record, taking the
claim branch with `isLeader = true`.  A stored `"{}"` parses to the truthy
empty object, lands in the follower branch, sets `isLeader = false`, and
writes nothing. -/
theorem checkLeadership_malformed_object_follower :
    (checkLeadership (Cell.val (JSVal.jobj FieldVal.missing FieldVal.missing))
        false false 1000 "self" 500 ⟨false, 2, true⟩).1.isLeader = false
    ∧ (checkLeadership (Cell.val (JSVal.jobj FieldVal.missing FieldVal.missing))
        false false 1000 "self" 500 ⟨false, 2, true⟩).2
      = Cell.val (JSVal.jobj FieldVal.missing FieldVal.missing) := by decide

/-- Claim C2 (amended): a stored value whose parse throws is treated exactly
like an absent record — the same claim result with a fresh own record and
`isLeader = true`, with the error caught rather than surfaced; but a stored
value that parses to a truthy non-record (such as `{}`) is not treated as
absent: it takes the follower branch with `isLeader = false` and no write,
also without surfacing an error. -/
theorem unparsable_as_absent (now timeout : Int) (tabId : String) (st st2 : TabState) :
    checkLeadership Cell.badJson false false now tabId timeout st
      = checkLeadership Cell.empty false false now tabId timeout st2
    ∧ checkLeadership Cell.badJson false false now tabId timeout st
      = claimResult tabId now
    ∧ checkLeadership (Cell.val (JSVal.jobj FieldVal.missing FieldVal.missing))
        false false now tabId timeout st
      = (⟨false, 2, false⟩, Cell.val (JSVal.jobj FieldVal.missing FieldVal.missing)) :=
  ⟨rfl, rfl, rfl⟩

/-- Claim C3, counterexample: the claim says cleanup deletes the record iff
its owner id equals this tab's own id, and leaves a record owned by a
different id untouched.  In the simplified variant's cleanup the delete is
guarded only by the local `isLeader` flag.  Concretely: tab `a` claims an
absent record and its flag becomes `true`; tab `b` then force-acquires, so
the store holds `b`'s record; if `a` unmounts before its next
reconciliation, its cleanup runs with the stale flag and deletes `b`'s
record, whose owner id is not `a`. -/
theorem cleanupSimple_deletes_foreign :
    (checkLeadership Cell.empty false false 0 "a" 100 ⟨false, 1, true⟩).1.isLeader = true
    ∧ (forceLeadership
        (checkLeadership Cell.empty false false 0 "a" 100 ⟨false, 1, true⟩).2
        false 50 "b" ⟨false, 2, false⟩).2 = Cell.val (TabRecord.toJS ⟨"b", 50⟩)
    ∧ cleanupSimple (Cell.val (TabRecord.toJS ⟨"b", 50⟩)) true = Cell.empty
    ∧ idStrictEq (TabRecord.toJS ⟨"b", 50⟩) "a" = false := by decide

/-- Claim C3 (amended): the main hook's unmount/`beforeunload` cleanup
re-reads the record and deletes it exactly when its `id` is this tab's own
id; an absent record or an unparsable one (and hence any record owned by
someone else) leaves the store unchanged.  The simplified variant's unmount
cleanup instead deletes exactly when its local `isLeader` flag is set,
regardless of the stored owner id — so with a stale flag it deletes a record
owned by a different id. -/
theorem cleanup_main_vs_variant (owner tabId : String) (ts : Int) (flag : Bool) :
    cleanup (Cell.val (TabRecord.toJS ⟨owner, ts⟩)) false false tabId
      = (if owner = tabId then Cell.empty
         else Cell.val (TabRecord.toJS ⟨owner, ts⟩))
    ∧ cleanup Cell.empty false false tabId = Cell.empty
    ∧ cleanup Cell.badJson false false tabId = Cell.badJson
    ∧ cleanupSimple (Cell.val (TabRecord.toJS ⟨owner, ts⟩)) flag
      = (if flag then Cell.empty
         else Cell.val (TabRecord.toJS ⟨owner, ts⟩)) := by
  refine ⟨?_, rfl, rfl, ?_⟩
  · by_cases h : owner = tabId <;>
      simp [cleanup, getCurrentRecord, idStrictEq, JSVal.truthy, JSVal.idProp,
        TabRecord.toJS, removeTabRecord, h]
  · cases flag <;> simp [cleanupSimple]

/-- Claim C4: running the leadership-transition effect over any observed
sequence of `isLeader` values fires `onBecomeLeader` exactly once per
`false → true` transition and `onLoseLeadership` exactly once per
`true → false` transition; in particular a run of renewals in which
`isLeader` stays `true` fires neither callback. -/
theorem callbacks_edge_triggered (prev : Bool) (seq : List Bool) (n : Nat) :
    runEffects prev seq = (countRises prev seq, countFalls prev seq)
    ∧ runEffects true (List.replicate n true) = (0, 0) := by
  refine ⟨runEffects_eq_counts seq prev, ?_⟩
  induction n with
  | zero => rfl
  | succ m ih =>
    simpa [List.replicate_succ, runEffects, leadershipEffect] using ih

/-- Claim C5: if a store failure occurs during reconciliation — the read
throws (caught inside `getCurrentRecord`), or a write needed to claim or
renew throws (caught inside `setTabRecord`) — the participant still ends the
reconciliation with `isLeader = true`, never locked out as a follower. -/
theorem fail_safe_to_leader (cell : Cell) (readFails writeFails : Bool)
    (now timeout : Int) (tabId : String) (st : TabState)
    (h : readFails = true
      ∨ (writeFails = true ∧ attemptsWrite cell readFails now tabId timeout = true)) :
    (checkLeadership cell readFails writeFails now tabId timeout st).1.isLeader = true := by
  rcases h with h | ⟨_, ha⟩
  · subst h
    simp [checkLeadership, getCurrentRecord, decideBranch]
  · unfold attemptsWrite at ha
    unfold checkLeadership
    cases hb : decideBranch (getCurrentRecord cell readFails) now tabId timeout <;>
      simp_all

/-- Claim C5, witness: a reconciliation whose read throws, against a live
foreign record, still ends with `isLeader = true`; so does one whose
claim-write throws. -/
theorem fail_safe_to_leader_witness :
    (checkLeadership (Cell.val (TabRecord.toJS ⟨"other", 0⟩)) true false 5 "self" 100
        ⟨false, 2, false⟩).1.isLeader = true
    ∧ (checkLeadership Cell.empty false true 5 "self" 100
        ⟨false, 2, false⟩).1.isLeader = true :=
  ⟨fail_safe_to_leader _ _ _ _ _ _ _ (Or.inl rfl),
   fail_safe_to_leader _ _ _ _ _ _ _ (Or.inr ⟨rfl, by decide⟩)⟩

/-- Claim C6: `forceLeadership` writes the caller's fresh record and sets
`isLeader = true`, `tabCount = 1`, with a result independent of the prior
store contents and prior leadership state — no decision-rule check is
consulted. -/
theorem forceLeadership_unconditional (cell cell2 : Cell) (now : Int)
    (tabId : String) (st st2 : TabState) :
    forceLeadership cell false now tabId st
      = (⟨true, 1, st.isChecking⟩, Cell.val (TabRecord.toJS ⟨tabId, now⟩))
    ∧ (forceLeadership cell false now tabId st).2
      = (forceLeadership cell2 false now tabId st2).2
    ∧ (forceLeadership cell2 false now tabId st2).1.isLeader = true :=
  ⟨rfl, rfl, rfl⟩

/-- Claim C7, counterexample: the claim says the storage-event listener
schedules reconciliation after a debounce of about 100 ms.  The main hook's
`handleStorageChange` instead calls `checkLeadership()` synchronously when
the event is for the namespace key: the action is an immediate
reconciliation, not a scheduled one. -/
theorem handleStorageChange_immediate :
    handleStorageChange "single-tab-my-app" "single-tab-my-app"
      = TriggerAction.reconcileNow
    ∧ TriggerAction.reconcileNow ≠ TriggerAction.schedule 100 := by decide

/-- Claim C7 (amended): the 100 ms debounced reconciliation applies to the
BroadcastChannel `leadership-change` message handler and to the simplified
hook variants' storage listener; the main hook's storage listener reconciles
immediately and synchronously, and events for other keys are ignored. -/
theorem trigger_handlers_debounce (storageKey other : String)
    (h : other ≠ storageKey) :
    handleStorageChange storageKey storageKey = TriggerAction.reconcileNow
    ∧ handleMessage "leadership-change" = TriggerAction.schedule 100
    ∧ handleStorage storageKey storageKey = TriggerAction.schedule 100
    ∧ handleStorageChange other storageKey = TriggerAction.ignore
    ∧ handleStorage other storageKey = TriggerAction.ignore := by
  simp [handleStorageChange, handleMessage, handleStorage, h]

/-- Claim C7, witness: the amended trigger behavior at a concrete key. -/
theorem trigger_handlers_debounce_witness :
    handleStorageChange "single-tab-demo" "single-tab-demo"
      = TriggerAction.reconcileNow
    ∧ handleMessage "leadership-change" = TriggerAction.schedule 100
    ∧ handleStorage "single-tab-demo" "single-tab-demo"
      = TriggerAction.schedule 100
    ∧ handleStorageChange "unrelated" "single-tab-demo" = TriggerAction.ignore
    ∧ handleStorage "unrelated" "single-tab-demo" = TriggerAction.ignore :=
  trigger_handlers_debounce "single-tab-demo" "unrelated" (by decide)

/-- Claim C8: reconciliation is idempotent.  A settled follower facing a live
foreign record performs no store write and keeps its exact state over any
number of reconciliations; a leader reconciling repeatedly with no competing
writes stays leader with the stored timestamp equal to the latest
reconciliation time, and along a non-decreasing sequence of times the stored
timestamp after each repeat is non-decreasing. -/
theorem reconciliation_idempotent (tabId other : String) (timeout ts ts0 : Int)
    (nows : List Int) :
    (other ≠ tabId → (∀ x ∈ nows, x - ts ≤ timeout) →
        checkN tabId timeout nows
            (⟨false, 2, false⟩, Cell.val (TabRecord.toJS ⟨other, ts⟩))
          = (⟨false, 2, false⟩, Cell.val (TabRecord.toJS ⟨other, ts⟩)))
    ∧ (checkN tabId timeout nows
            (⟨true, 1, false⟩, Cell.val (TabRecord.toJS ⟨tabId, ts0⟩))
          = (⟨true, 1, false⟩, Cell.val (TabRecord.toJS ⟨tabId, nows.getLastD ts0⟩)))
    ∧ (List.Chain (· ≤ ·) ts0 nows →
        ∀ n, (nows.take n).getLastD ts0 ≤ (nows.take (n + 1)).getLastD ts0) :=
  ⟨fun hid hlive => checkN_follower tabId other timeout ts nows hid hlive,
   checkN_leader tabId timeout nows ts0,
   fun hc n => chain_take_getLastD nows ts0 hc n⟩

/-- Claim C8, witness: two reconciliations of a settled follower change
nothing; two reconciliations of a leader at times `1, 2` end with the own
record at timestamp `2`; and the stored timestamps are non-decreasing. -/
theorem reconciliation_idempotent_witness :
    checkN "a" 100 [1, 2] (⟨false, 2, false⟩, Cell.val (TabRecord.toJS ⟨"b", 0⟩))
      = (⟨false, 2, false⟩, Cell.val (TabRecord.toJS ⟨"b", 0⟩))
    ∧ checkN "a" 100 [1, 2] (⟨true, 1, false⟩, Cell.val (TabRecord.toJS ⟨"a", 0⟩))
      = (⟨true, 1, false⟩, Cell.val (TabRecord.toJS ⟨"a", 2⟩))
    ∧ ([1, 2].take 1).getLastD (0 : Int) ≤ ([1, 2].take 2).getLastD 0 := by
  have h := reconciliation_idempotent "a" "b" 100 0 0 [1, 2]
  exact ⟨h.1 (by decide) (by decide), by simpa using h.2.1,
    h.2.2 (by norm_num [List.chain_cons]) 1⟩

/-- Claim C9: on a visibility change to hidden, a leader rewrites its record
with its own id and a refreshed timestamp while its state (including
`isLeader = true`) is untouched; a non-leader writes nothing; a change to
visible writes nothing. -/
theorem hidden_leader_renews (tc : Nat) (ic : Bool) (cell : Cell)
    (tabId : String) (now : Int) :
    handleVisibilityChange Visibility.hidden ⟨true, tc, ic⟩ cell tabId now false
      = (⟨true, tc, ic⟩, Cell.val (TabRecord.toJS ⟨tabId, now⟩))
    ∧ handleVisibilityChange Visibility.hidden ⟨false, tc, ic⟩ cell tabId now false
      = (⟨false, tc, ic⟩, cell)
    ∧ handleVisibilityChange Visibility.visible ⟨true, tc, ic⟩ cell tabId now false
      = (⟨true, tc, ic⟩, cell) :=
  ⟨rfl, rfl, rfl⟩

/-- Claim C10: every store mutation any of the writing operations can perform
— reconciliation's claim or renew, `forceLeadership`, or the hidden-leader
renewal — either leaves the cell unchanged or stores exactly
`{ id: tabId, timestamp: now }` with the participant's own id; no operation
ever writes a record naming another id. -/
theorem writes_carry_own_id (cell : Cell) (readFails writeFails : Bool)
    (now timeout : Int) (tabId : String) (st : TabState) (vis : Visibility) :
    ((checkLeadership cell readFails writeFails now tabId timeout st).2 = cell
      ∨ (checkLeadership cell readFails writeFails now tabId timeout st).2
        = Cell.val (TabRecord.toJS ⟨tabId, now⟩))
    ∧ ((forceLeadership cell writeFails now tabId st).2 = cell
      ∨ (forceLeadership cell writeFails now tabId st).2
        = Cell.val (TabRecord.toJS ⟨tabId, now⟩))
    ∧ ((handleVisibilityChange vis st cell tabId now writeFails).2 = cell
      ∨ (handleVisibilityChange vis st cell tabId now writeFails).2
        = Cell.val (TabRecord.toJS ⟨tabId, now⟩)) := by
  refine ⟨?_, ?_, ?_⟩
  · unfold checkLeadership
    rcases hb : decideBranch (getCurrentRecord cell readFails) now tabId timeout with
        _ | _ | _ <;>
      simp only [hb] <;>
      first
        | exact Or.inl trivial
        | exact Or.inl rfl
        | exact setTabRecord_cases cell ⟨tabId, now⟩ writeFails
  · exact setTabRecord_cases cell ⟨tabId, now⟩ writeFails
  · unfold handleVisibilityChange
    cases vis
    · exact Or.inl rfl
    · rcases hL : st.isLeader <;> simp only [hL, if_true, if_false] <;>
        first
          | exact Or.inl trivial
          | exact Or.inl rfl
          | exact setTabRecord_cases cell ⟨tabId, now⟩ writeFails

end SingleTab
